import Mathlib

/-!
# Verification of the Incapsula subaccount client

A shallow embedding of `incapsula/client_subaccount.go`: the data model
(`SubAccount`, `SubAccountPayload`, the response wrappers), the form-body
builders of `AddSubAccount`, `sendListSubAccountsRequest` and
`DeleteSubAccount`, the post-transport stages of the three operations
(body read, JSON decode, result-code check), and the pagination loop of
`GetSubAccount`.

External collaborators (the HTTP transport `PostFormWithHeaders` and the
JSON codec `json.Unmarshal`) are parameters of the embedded operations:
an operation receives the transport outcome and a decoding function and
produces exactly what the Go function returns for that outcome. The Go
pagination loop has no bound, so it is embedded with explicit fuel: a
`none` result means the loop is still running after `fuel` iterations.
-/

namespace Incapsula

/-- Source constant `PAGE_SIZE = 50`. -/
def PAGE_SIZE : Nat := 50

/-- Source struct `SubAccountPayload` (the creation payload fields). -/
structure SubAccountPayload where
  SubAccountName : String
  RefID : String
  LogLevel : String
  ParentID : Int
  LogsAccountID : Int
  deriving DecidableEq, Repr

/-- Source struct `SubAccount`: a provider-assigned ID composed with the
payload fields. The Go struct embeds `*SubAccountPayload`; the embedded
pointer is modelled as an always-present payload record (missing JSON
fields decode to zero values, matching `encoding/json`). -/
structure SubAccount where
  SubAccountID : Int
  payload : SubAccountPayload
  deriving DecidableEq, Repr

/-- Source struct `SubAccountAddResponse`. -/
structure SubAccountAddResponse where
  SubAccount : SubAccount
  Res : Int
  deriving DecidableEq, Repr

/-- Source struct `SubAccountListResponse`. -/
structure SubAccountListResponse where
  SubAccounts : List SubAccount
  Res : Int
  deriving DecidableEq, Repr

/-- Source struct `SubAccountDeleteResponse` (local to `DeleteSubAccount`). -/
structure SubAccountDeleteResponse where
  Res : Int
  ResMessage : String
  deriving DecidableEq, Repr

/-- The outcome of `ioutil.ReadAll(resp.Body)` on a transport success:
the bytes obtained (possibly partial) and the read error, which the Go
code overwrites without checking. -/
structure HTTPResponse where
  body : String
  readErr : Option String
  deriving DecidableEq, Repr

/-- The outcome of `c.PostFormWithHeaders`: a transport error or a response. -/
abbrev Transport := Except String HTTPResponse

/-! ## GetSubAccount: the pagination loop

`sendListSubAccountsRequest` is abstracted by a function from page number
to its outcome (an error string, or the decoded page of subaccounts);
claims about the body of `sendListSubAccountsRequest` itself are settled
against its separate embedding below. -/

/-- A responder: the outcome of the page fetch at each page number. -/
abbrev FetchPage := Nat → Except String (List SubAccount)

/-- The predicate of the inner `for` loop of `GetSubAccount`:
`subAccount.SubAccountID == subAccountID`. -/
def matchesID (subAccountID : Int) (sa : SubAccount) : Bool :=
  sa.SubAccountID == subAccountID

/-- The `for shouldFetch` loop of `GetSubAccount`, with explicit fuel
(the Go loop is unbounded). Besides the Go result (`Except` of an
optional match), it records the page numbers fetched, in order, so that
the claims about the number and order of page fetches are statable.
`none` means the fuel ran out with the loop still fetching. -/
def GetSubAccountLoop (fetch : FetchPage) (subAccountID : Int) :
    Nat → Nat → Option (List Nat × Except String (Option SubAccount))
  | 0, _ => none
  | fuel + 1, count =>
    match fetch count with
    | .error e => some ([count], .error e)
    | .ok subAccounts =>
      match subAccounts.find? (matchesID subAccountID) with
      | some subAccount => some ([count], .ok (some subAccount))
      | none =>
        if subAccounts.length = PAGE_SIZE then
          match GetSubAccountLoop fetch subAccountID fuel (count + 1) with
          | none => none
          | some (pages, r) => some (count :: pages, r)
        else some ([count], .ok none)

/-- `GetSubAccount`, started at `count = 0` as in the source. -/
def GetSubAccount (fetch : FetchPage) (subAccountID : Int) (fuel : Nat) :
    Option (List Nat × Except String (Option SubAccount)) :=
  GetSubAccountLoop fetch subAccountID fuel 0

/-- Page `j` neither errors, nor matches, nor is short: the loop fetches
the next page after it. -/
def pageFullNoMatch (fetch : FetchPage) (subAccountID : Int) (j : Nat) : Prop :=
  ∃ l, fetch j = .ok l ∧ l.find? (matchesID subAccountID) = none ∧
    l.length = PAGE_SIZE

/-- Page `p` stops the loop: the fetch errors, or some entry matches, or
the page is not full. -/
def pageHalts (fetch : FetchPage) (subAccountID : Int) (p : Nat) : Prop :=
  match fetch p with
  | .error _ => True
  | .ok l => (l.find? (matchesID subAccountID)).isSome = true ∨
      l.length ≠ PAGE_SIZE

/-! ### Concrete responders used to evaluate the pagination claims -/

/-- A subaccount with the given ID and zero-valued payload. -/
def mkSubAccount (i : Int) : SubAccount :=
  ⟨i, ⟨"", "", "", 0, 0⟩⟩

/-- A full page: 50 entries with IDs 100..149. -/
def fullPage : List SubAccount :=
  (List.range PAGE_SIZE).map (fun i => mkSubAccount (i + 100))

/-- Pages 0 and 1 full (50 entries), page 2 with 3 entries; no entry has
ID 999. -/
def fetchNoMatch : FetchPage := fun p =>
  if p < 2 then .ok fullPage
  else .ok [mkSubAccount 1, mkSubAccount 2, mkSubAccount 3]

/-- Page 0 has 50 entries and the entry at index 10 has ID 555. -/
def fetchMatch : FetchPage := fun _ =>
  .ok ((List.range PAGE_SIZE).map
    (fun i => if i = 10 then mkSubAccount 555 else mkSubAccount (i + 100)))

/-- Page 0 full with no match for ID 999; the fetch of page 1 fails. -/
def fetchErr : FetchPage := fun p =>
  if p = 0 then .ok fullPage else .error "transport failure"

/-- Every page is full (50 entries) and no entry has ID 999. -/
def fetchFull : FetchPage := fun _ => .ok fullPage

/-! ## Form bodies

`url.Values` insertion into a Go map is modelled as an association list
in source order; the claims are stated via membership, so the map/list
difference is immaterial (all inserted keys are distinct). `fmt.Sprint`
of a string is the string itself and of an `int` is its decimal form
(`toString` on `Int`/`Nat`). -/

/-- The form body built by `AddSubAccount` (source lines 48..70). -/
def AddSubAccountValues (subAccountPayload : SubAccountPayload) :
    List (String × String) :=
  [("sub_account_name", subAccountPayload.SubAccountName)]
    ++ (if subAccountPayload.RefID ≠ "" then
          [("ref_id", subAccountPayload.RefID)] else [])
    ++ (if subAccountPayload.ParentID ≠ 0 then
          [("parent_id", toString subAccountPayload.ParentID)] else [])
    ++ (if subAccountPayload.LogsAccountID ≠ 0 then
          [("logs_account_id", toString subAccountPayload.LogsAccountID)] else [])
    ++ (if subAccountPayload.LogLevel ≠ "" then
          [("log_level", subAccountPayload.LogLevel)] else [])

/-- The form body built by `sendListSubAccountsRequest` (lines 133..142). -/
def sendListSubAccountsValues (accountId : Int) (pageNum : Nat) :
    List (String × String) :=
  (if accountId ≠ 0 then [("account_id", toString accountId)] else [])
    ++ [("page_num", toString pageNum), ("page_size", toString PAGE_SIZE)]

/-- The form body built by `DeleteSubAccount` (lines 181..183). -/
def DeleteSubAccountValues (subAccountID : Int) : List (String × String) :=
  [("sub_account_id", toString subAccountID)]

/-! ## The post-transport stages of the three operations

Each operation is a function of the transport outcome (the result of
`PostFormWithHeaders` followed by `ioutil.ReadAll`) and of the JSON
decoder (`json.Unmarshal` into the operation response struct, passed as
a parameter: `.ok` when unmarshalling succeeds, `.error` with the
unmarshal error text otherwise). The error strings are built exactly as
by the `fmt.Errorf` calls in the source. The `readErr` component of a
response is the error returned by `ioutil.ReadAll`, which the source
overwrites without checking. -/

/-- `AddSubAccount` after the form body is built (source lines 78..102). -/
def AddSubAccount (decode : String → Except String SubAccountAddResponse)
    (subAccountPayload : SubAccountPayload) (transport : Transport) :
    Except String SubAccountAddResponse :=
  match transport with
  | .error err =>
    .error ("Error adding subaccount " ++ subAccountPayload.SubAccountName
      ++ ": " ++ err)
  | .ok resp =>
    let responseBody := resp.body
    match decode responseBody with
    | .error err =>
      .error ("Error parsing add subaccount JSON response for subaccount "
        ++ subAccountPayload.SubAccountName ++ ": " ++ err)
    | .ok subAccountAddResponse =>
      if subAccountAddResponse.Res ≠ 0 then
        .error ("Error from Incapsula service when adding subaccount "
          ++ subAccountPayload.SubAccountName ++ ": " ++ responseBody)
      else .ok subAccountAddResponse

/-- `sendListSubAccountsRequest` after the form body is built (source
lines 147..166). Note the source returns the decoded list without
checking `Res`. -/
def sendListSubAccountsRequest
    (decode : String → Except String SubAccountListResponse)
    (accountId : Int) (transport : Transport) :
    Except String (List SubAccount) :=
  match transport with
  | .error err =>
    .error ("Error getting subaccounts for account " ++ toString accountId
      ++ ": " ++ err)
  | .ok resp =>
    let responseBody := resp.body
    match decode responseBody with
    | .error err =>
      .error ("Error parsing subaccounts list JSON response for accountid: "
        ++ toString accountId ++ " " ++ err ++ "\nresponse: " ++ responseBody)
    | .ok subAccountListResponse => .ok subAccountListResponse.SubAccounts

/-- `DeleteSubAccount` after the form body is built (source lines
181..207). -/
def DeleteSubAccount (decode : String → Except String SubAccountDeleteResponse)
    (subAccountID : Int) (transport : Transport) : Except String Unit :=
  match transport with
  | .error err =>
    .error ("Error deleting subaccount id: " ++ toString subAccountID
      ++ ": " ++ err)
  | .ok resp =>
    let responseBody := resp.body
    match decode responseBody with
    | .error err =>
      .error ("Error parsing delete account JSON response for subaccount id: "
        ++ toString subAccountID ++ ": " ++ err)
    | .ok subaccountDeleteResponse =>
      if subaccountDeleteResponse.Res ≠ 0 then
        .error ("Error from Incapsula service when deleting subaccount id: "
          ++ toString subAccountID ++ ": " ++ responseBody)
      else .ok ()

/-- `needle` occurs verbatim inside `hay`. -/
def containsSubstr (hay needle : String) : Prop :=
  needle.data <:+: hay.data

instance (hay needle : String) : Decidable (containsSubstr hay needle) :=
  List.decidableInfix needle.data hay.data

/-! ### Concrete payloads, responses and decoders for the witnesses -/

def payloadNameOnly : SubAccountPayload := ⟨"my-subaccount", "", "", 0, 0⟩

def payloadAll : SubAccountPayload := ⟨"my-subaccount", "ref-1", "full", 42, 17⟩

def respResW : HTTPResponse := ⟨"res 1 body", none⟩

/-- A response whose body is the single byte 0x7b, which is not a
complete JSON document. -/
def respBadW : HTTPResponse := ⟨"\x7b", none⟩

def decodeAddRes1W : String → Except String SubAccountAddResponse :=
  fun _ => .ok ⟨mkSubAccount 7, 1⟩

def decodeDelRes0W : String → Except String SubAccountDeleteResponse :=
  fun _ => .ok ⟨0, "ignored message"⟩

/-- encoding/json fails on the truncated body of `respBadW` with exactly
this message; the message does not quote the body. -/
def jsonEOFMsg : String := "unexpected end of JSON input"

def decodeAddFailW : String → Except String SubAccountAddResponse :=
  fun _ => .error jsonEOFMsg

def decodeListFailW : String → Except String SubAccountListResponse :=
  fun _ => .error jsonEOFMsg

def decodeDelFailW : String → Except String SubAccountDeleteResponse :=
  fun _ => .error jsonEOFMsg

/-- The parse-error string `AddSubAccount` produces for `respBadW` and
`payloadNameOnly`. -/
def addParseErrW : String :=
  "Error parsing add subaccount JSON response for subaccount my-subaccount: unexpected end of JSON input"

/-! ## Struct tags and JSON wire names

The tag strings below are copied verbatim from the struct definitions in
the source; note the stray quote in the `LogsAccountID` tag. The
functions model the parts of the Go standard library that give the tags
meaning: `reflect.StructTag.Get` (reflect/type.go) and the json tag-name
parsing of encoding/json (the wire name is the tag value up to the first
comma; the validity check is omitted, every name here being plainly
valid). -/

def tagSubAccountID : String := "json:\"sub_account_id\""
def tagSubAccount : String := "json:\"sub_account\""
def tagRes : String := "json:\"res\""
def tagResultList : String := "json:\"resultList\""
def tagSubAccountName : String := "json:\"sub_account_name\""
def tagRefID : String := "json:\"ref_id,omitempty\""
def tagLogLevel : String := "json:\"log_level,omitempty\""
def tagParentID : String := "json:\"parent_id,omitempty\""
def tagLogsAccountID : String := "json:\"logs_account_id\",omitempty\""
def tagResMessage : String := "json:\"res_message\""

/-- A byte of a tag key: Go scans while the byte is above space and is
not a colon, a quote, or 0x7f. -/
def tagNameChar (c : Char) : Bool :=
  0x20 < c.toNat && c ≠ ':' && c ≠ '"' && c.toNat ≠ 0x7f

/-- The quoted-value scan of `reflect.StructTag.Get`, entered after the
opening quote: advance to the next quote, skipping the character after
each backslash; yields the raw content and the rest of the tag after the
closing quote, or nothing when the closing quote is missing. -/
def scanQuoted : Nat → List Char → Option (List Char × List Char)
  | _, [] => none
  | 0, _ => none
  | _ + 1, '"' :: rest => some ([], rest)
  | fuel + 1, '\\' :: c :: rest =>
    (scanQuoted fuel rest).map (fun vr => ('\\' :: c :: vr.1, vr.2))
  | fuel + 1, c :: rest =>
    (scanQuoted fuel rest).map (fun vr => (c :: vr.1, vr.2))

/-- `strconv.Unquote` on the content of a double-quoted string,
restricted to the escapes that can occur in these tags. -/
def unquoteContent : List Char → Option (List Char)
  | [] => some []
  | '\\' :: '\\' :: rest => (unquoteContent rest).map (fun v => '\\' :: v)
  | '\\' :: '"' :: rest => (unquoteContent rest).map (fun v => '"' :: v)
  | '\\' :: _ => none
  | '"' :: _ => none
  | c :: rest => (unquoteContent rest).map (fun v => c :: v)

/-- The pair-scanning loop of `reflect.StructTag.Get`: skip spaces, scan
a key up to the colon, require a double-quoted value, return the
unquoted value of the first pair whose key matches, and stop at the
first syntax error. Each iteration consumes at least one character, so
`fuel = length + 1` never runs out. -/
def structTagLookupAux (key : String) : Nat → List Char → Option String
  | 0, _ => none
  | fuel + 1, tag0 =>
    let tag := tag0.dropWhile (· = ' ')
    let name := tag.takeWhile tagNameChar
    let rest := tag.drop name.length
    if name.isEmpty then none
    else
      match rest with
      | ':' :: '"' :: rest2 =>
        match scanQuoted (rest2.length + 1) rest2 with
        | none => none
        | some (qcontent, rest3) =>
          if String.mk name = key then
            (unquoteContent qcontent).map String.mk
          else structTagLookupAux key fuel rest3
      | _ => none

/-- `reflect.StructTag.Get tag key`. -/
def structTagLookup (tag key : String) : Option String :=
  structTagLookupAux key (tag.length + 1) tag.data

/-- The wire name encoding/json uses for a struct field: the json tag
value up to the first comma, the Go field name when the tag is absent or
its name part is empty, and no name at all for a "-" tag (field
skipped). -/
def jsonFieldKey (goFieldName tag : String) : Option String :=
  match structTagLookup tag "json" with
  | none => some goFieldName
  | some v =>
    if v = "-" then none
    else
      let name := String.mk (v.data.takeWhile (· ≠ ','))
      if name.isEmpty then some goFieldName else some name

/-- A JSON value, as far as these responses need. -/
inductive Json where
  | null : Json
  | str : String → Json
  | num : Int → Json
  | arr : List Json → Json
  | obj : List (String × Json) → Json

/-- The value decoded into a string field: resolve the wire key from the
Go field name and tag, look it up in the object; a missing key leaves
the zero value, as encoding/json leaves absent fields untouched. -/
def jsonFieldStr (obj : List (String × Json)) (goFieldName tag : String) :
    String :=
  match jsonFieldKey goFieldName tag with
  | none => ""
  | some k =>
    match obj.lookup k with
    | some (.str s) => s
    | _ => ""

/-- The value decoded into an integer field. -/
def jsonFieldInt (obj : List (String × Json)) (goFieldName tag : String) :
    Int :=
  match jsonFieldKey goFieldName tag with
  | none => 0
  | some k =>
    match obj.lookup k with
    | some (.num n) => n
    | _ => 0

/-- The object decoded into a struct-valued field. -/
def jsonFieldObj (obj : List (String × Json)) (goFieldName tag : String) :
    List (String × Json) :=
  match jsonFieldKey goFieldName tag with
  | none => []
  | some k =>
    match obj.lookup k with
    | some (.obj o) => o
    | _ => []

/-- The elements decoded into a slice-valued field. -/
def jsonFieldArr (obj : List (String × Json)) (goFieldName tag : String) :
    List Json :=
  match jsonFieldKey goFieldName tag with
  | none => []
  | some k =>
    match obj.lookup k with
    | some (.arr xs) => xs
    | _ => []

/-- `json.Unmarshal` of an object into `SubAccountPayload`, driven by
the tags above. -/
def decodeSubAccountPayload (obj : List (String × Json)) : SubAccountPayload :=
  { SubAccountName := jsonFieldStr obj "SubAccountName" tagSubAccountName
    RefID := jsonFieldStr obj "RefID" tagRefID
    LogLevel := jsonFieldStr obj "LogLevel" tagLogLevel
    ParentID := jsonFieldInt obj "ParentID" tagParentID
    LogsAccountID := jsonFieldInt obj "LogsAccountID" tagLogsAccountID }

/-- `json.Unmarshal` of an object into `SubAccount`: the embedded
payload promotes its fields into the same object. -/
def decodeSubAccount (obj : List (String × Json)) : SubAccount :=
  { SubAccountID := jsonFieldInt obj "SubAccountID" tagSubAccountID
    payload := decodeSubAccountPayload obj }

/-- A JSON array element decoded as a `SubAccount` (zero value when the
element is not an object). -/
def decodeJsonSubAccount : Json → SubAccount
  | .obj o => decodeSubAccount o
  | _ => mkSubAccount 0

/-- `json.Unmarshal` of an object into `SubAccountAddResponse`. -/
def decodeSubAccountAddResponse (obj : List (String × Json)) :
    SubAccountAddResponse :=
  { SubAccount := decodeSubAccount (jsonFieldObj obj "SubAccount" tagSubAccount)
    Res := jsonFieldInt obj "Res" tagRes }

/-- `json.Unmarshal` of an object into `SubAccountListResponse`. -/
def decodeSubAccountListResponse (obj : List (String × Json)) :
    SubAccountListResponse :=
  { SubAccounts := (jsonFieldArr obj "SubAccounts" tagResultList).map
      decodeJsonSubAccount
    Res := jsonFieldInt obj "Res" tagRes }

/-- `json.Unmarshal` of an object into `SubAccountDeleteResponse`. -/
def decodeSubAccountDeleteResponse (obj : List (String × Json)) :
    SubAccountDeleteResponse :=
  { Res := jsonFieldInt obj "Res" tagRes
    ResMessage := jsonFieldStr obj "ResMessage" tagResMessage }

lemma GetSubAccountLoop_skip (fetch : FetchPage) (subAccountID : Int) :
    ∀ (k fuel count : Nat),
      (∀ j, j < k → pageFullNoMatch fetch subAccountID (count + j)) →
      GetSubAccountLoop fetch subAccountID (k + fuel) count
        = (GetSubAccountLoop fetch subAccountID fuel (count + k)).map
            (fun pr => ((List.range k).map (count + ·) ++ pr.1, pr.2)) := by
  intro k
  induction k with
  | zero =>
    intro fuel count _
    simp only [Nat.zero_add, Nat.add_zero, List.range_zero, List.map_nil,
      List.nil_append]
    cases GetSubAccountLoop fetch subAccountID fuel count <;> simp
  | succ k ih =>
    intro fuel count h
    obtain ⟨l, hfetch, hfind, hlen⟩ := by
      simpa using h 0 (Nat.succ_pos k)
    have hrest : ∀ j, j < k → pageFullNoMatch fetch subAccountID (count + 1 + j) := by
      intro j hj
      have := h (j + 1) (by omega)
      simpa [Nat.add_assoc, Nat.add_comm 1 j] using this
    have hstep : k + 1 + fuel = (k + fuel) + 1 := by omega
    rw [hstep]
    simp only [GetSubAccountLoop, hfetch, hfind, hlen, if_pos rfl]
    rw [ih fuel (count + 1) hrest]
    have harith : count + 1 + k = count + (k + 1) := by omega
    rw [harith]
    cases GetSubAccountLoop fetch subAccountID fuel (count + (k + 1)) with
    | none => simp
    | some pr =>
      simp only [Option.map_some']
      refine congrArg some (Prod.ext ?_ rfl)
      show count :: ((List.range k).map ((count + 1) + ·) ++ pr.1)
          = (List.range (k + 1)).map (count + ·) ++ pr.1
      rw [List.range_succ_eq_map, List.map_cons, List.map_map]
      simp only [Nat.add_zero, List.cons_append]
      refine congrArg (fun t => count :: (t ++ pr.1)) ?_
      refine List.map_congr_left ?_
      intro a _
      simp [Function.comp]
      omega

/-- **C1.** If no fetched page contains the target ID, `GetSubAccount`
requests pages 0, 1, ..., in order, continuing exactly while each page
has 50 entries, stops at the first page with fewer than 50 entries, and
returns an absent subaccount with no error. The recorded fetch list
`List.range (k + 1)` shows exactly `k + 1` fetches with page numbers
0..k. -/
theorem GetSubAccount_no_match_scans_until_short_page
    (fetch : FetchPage) (subAccountID : Int) (k : Nat) (l : List SubAccount)
    (hfull : ∀ j, j < k → pageFullNoMatch fetch subAccountID j)
    (hk : fetch k = .ok l)
    (hnomatch : l.find? (matchesID subAccountID) = none)
    (hshort : l.length < PAGE_SIZE) :
    ∀ fuel, k < fuel →
      GetSubAccount fetch subAccountID fuel
        = some (List.range (k + 1), .ok none) := by
  intro fuel hfuel
  have hsplit : fuel = k + (fuel - k) := by omega
  rw [GetSubAccount, hsplit,
    GetSubAccountLoop_skip fetch subAccountID k (fuel - k) 0
      (by simpa using hfull)]
  obtain ⟨m, hm⟩ : ∃ m, fuel - k = m + 1 := ⟨fuel - k - 1, by omega⟩
  rw [hm]
  simp only [Nat.zero_add]
  have hne : l.length ≠ PAGE_SIZE := by omega
  simp only [GetSubAccountLoop, hk, hnomatch, if_neg hne, Option.map_some']
  simp [List.range_succ]

/-- Witness for C1: pages 0 and 1 of 50 entries, page 2 of 3 entries,
none with ID 999: exactly 3 fetches (pages 0, 1, 2), absent result, no
error. -/
theorem GetSubAccount_no_match_scans_until_short_page_witness :
    GetSubAccount fetchNoMatch 999 10 = some ([0, 1, 2], .ok none) := by
  have h := GetSubAccount_no_match_scans_until_short_page fetchNoMatch 999 2
    [mkSubAccount 1, mkSubAccount 2, mkSubAccount 3]
    (fun j hj => ⟨fullPage, by interval_cases j <;> rfl, by decide, by decide⟩)
    rfl (by decide) (by decide) 10 (by decide)
  simpa using h

/-- **C2.** If every page before page `k` is full with no match and page
`k` contains a matching entry, `GetSubAccount` returns the first match in
scan order with no error, having fetched exactly pages 0..k (no fetch
after the matching page). The matched entry has the target ID. -/
theorem GetSubAccount_match_stops_scan
    (fetch : FetchPage) (subAccountID : Int) (k : Nat) (l : List SubAccount)
    (sa : SubAccount)
    (hfull : ∀ j, j < k → pageFullNoMatch fetch subAccountID j)
    (hk : fetch k = .ok l)
    (hfind : l.find? (matchesID subAccountID) = some sa) :
    sa.SubAccountID = subAccountID ∧
    ∀ fuel, k < fuel →
      GetSubAccount fetch subAccountID fuel
        = some (List.range (k + 1), .ok (some sa)) := by
  constructor
  · have := List.find?_some hfind
    simpa [matchesID] using this
  · intro fuel hfuel
    have hsplit : fuel = k + (fuel - k) := by omega
    rw [GetSubAccount, hsplit,
      GetSubAccountLoop_skip fetch subAccountID k (fuel - k) 0
        (by simpa using hfull)]
    obtain ⟨m, hm⟩ : ∃ m, fuel - k = m + 1 := ⟨fuel - k - 1, by omega⟩
    rw [hm]
    simp only [Nat.zero_add]
    simp only [GetSubAccountLoop, hk, hfind, Option.map_some']
    simp [List.range_succ]

/-- Witness for C2: page 0 has 50 entries and the entry at index 10 has
the target ID 555: exactly 1 fetch (page 0) and that entry is
returned. -/
theorem GetSubAccount_match_stops_scan_witness :
    GetSubAccount fetchMatch 555 5 = some ([0], .ok (some (mkSubAccount 555))) := by
  have h := (GetSubAccount_match_stops_scan fetchMatch 555 0
    ((List.range PAGE_SIZE).map
      (fun i => if i = 10 then mkSubAccount 555 else mkSubAccount (i + 100)))
    (mkSubAccount 555)
    (fun j hj => absurd hj (Nat.not_lt_zero j))
    rfl (by decide)).2 5 (by decide)
  simpa using h

/-- **C3.** If every page before page `k` is full with no match and the
fetch of page `k` fails, `GetSubAccount` returns a nil subaccount with
that error immediately: exactly pages 0..k are fetched and no entry from
earlier pages is returned. -/
theorem GetSubAccount_fetch_error_aborts
    (fetch : FetchPage) (subAccountID : Int) (k : Nat) (e : String)
    (hfull : ∀ j, j < k → pageFullNoMatch fetch subAccountID j)
    (hk : fetch k = .error e) :
    ∀ fuel, k < fuel →
      GetSubAccount fetch subAccountID fuel
        = some (List.range (k + 1), .error e) := by
  intro fuel hfuel
  have hsplit : fuel = k + (fuel - k) := by omega
  rw [GetSubAccount, hsplit,
    GetSubAccountLoop_skip fetch subAccountID k (fuel - k) 0
      (by simpa using hfull)]
  obtain ⟨m, hm⟩ : ∃ m, fuel - k = m + 1 := ⟨fuel - k - 1, by omega⟩
  rw [hm]
  simp only [Nat.zero_add]
  simp only [GetSubAccountLoop, hk, Option.map_some']
  simp [List.range_succ]

/-- Witness for C3: page 0 full with no match, transport error at page 1:
the error is returned after fetching pages 0 and 1 only (page 2 is never
attempted). -/
theorem GetSubAccount_fetch_error_aborts_witness :
    GetSubAccount fetchErr 999 10 = some ([0, 1], .error "transport failure") := by
  have h := GetSubAccount_fetch_error_aborts fetchErr 999 1 "transport failure"
    (fun j hj => ⟨fullPage, by interval_cases j; rfl, by decide, by decide⟩)
    rfl 10 (by decide)
  simpa using h

lemma GetSubAccountLoop_some_implies_halts (fetch : FetchPage) (subAccountID : Int) :
    ∀ fuel count pr, GetSubAccountLoop fetch subAccountID fuel count = some pr →
      ∃ p, count ≤ p ∧ pageHalts fetch subAccountID p := by
  intro fuel
  induction fuel with
  | zero =>
    intro count pr h
    simp [GetSubAccountLoop] at h
  | succ fuel ih =>
    intro count pr h
    cases hf : fetch count with
    | error e => exact ⟨count, le_refl _, by simp [pageHalts, hf]⟩
    | ok l =>
      cases hfind : l.find? (matchesID subAccountID) with
      | some sa => exact ⟨count, le_refl _, by simp [pageHalts, hf, hfind]⟩
      | none =>
        by_cases hlen : l.length = PAGE_SIZE
        · simp only [GetSubAccountLoop, hf, hfind, if_pos hlen] at h
          cases hrec : GetSubAccountLoop fetch subAccountID fuel (count + 1) with
          | none => rw [hrec] at h; simp at h
          | some pr' =>
            obtain ⟨p, hp, hhalts⟩ := ih (count + 1) pr' hrec
            exact ⟨p, by omega, hhalts⟩
        · exact ⟨count, le_refl _, by simp [pageHalts, hf, hlen]⟩

lemma halts_implies_GetSubAccountLoop_some (fetch : FetchPage) (subAccountID : Int) :
    ∀ fuel count p, count ≤ p → p < count + fuel →
      pageHalts fetch subAccountID p →
      ∃ pr, GetSubAccountLoop fetch subAccountID fuel count = some pr := by
  intro fuel
  induction fuel with
  | zero =>
    intro count p h1 h2 _
    omega
  | succ fuel ih =>
    intro count p h1 h2 hhalts
    cases hf : fetch count with
    | error e => exact ⟨([count], .error e), by simp [GetSubAccountLoop, hf]⟩
    | ok l =>
      cases hfind : l.find? (matchesID subAccountID) with
      | some sa =>
        exact ⟨([count], .ok (some sa)), by simp [GetSubAccountLoop, hf, hfind]⟩
      | none =>
        by_cases hlen : l.length = PAGE_SIZE
        · have hne : count ≠ p := by
            intro heq
            subst heq
            simp [pageHalts, hf, hfind, hlen] at hhalts
          obtain ⟨pr, hpr⟩ := ih (count + 1) p (by omega) (by omega) hhalts
          obtain ⟨pages, r⟩ := pr
          exact ⟨(count :: pages, r),
            by simp [GetSubAccountLoop, hf, hfind, hlen, hpr]⟩
        · exact ⟨([count], .ok none), by simp [GetSubAccountLoop, hf, hfind, hlen]⟩

lemma no_halt_GetSubAccountLoop_none (fetch : FetchPage) (subAccountID : Int)
    (h : ∀ p, ¬ pageHalts fetch subAccountID p) :
    ∀ fuel count, GetSubAccountLoop fetch subAccountID fuel count = none := by
  intro fuel
  induction fuel with
  | zero => intro count; rfl
  | succ fuel ih =>
    intro count
    have hcount := h count
    cases hf : fetch count with
    | error e => exact absurd (by simp [pageHalts, hf]) hcount
    | ok l =>
      cases hfind : l.find? (matchesID subAccountID) with
      | some sa => exact absurd (by simp [pageHalts, hf, hfind]) hcount
      | none =>
        by_cases hlen : l.length = PAGE_SIZE
        · simp [GetSubAccountLoop, hf, hfind, hlen, ih (count + 1)]
        · exact absurd (by simp [pageHalts, hf, hlen]) hcount

/-- **C9.** `GetSubAccount` terminates (returns within some fuel) if and
only if some page fetch eventually errors, contains the target ID, or
returns fewer or more than 50 entries; against a responder whose every
page is full with no match, the loop runs forever (for every fuel, from
every page counter, it is still fetching: no page limit exists). -/
theorem GetSubAccount_terminates_iff_halting_page
    (fetch : FetchPage) (subAccountID : Int) :
    ((∃ fuel pr, GetSubAccount fetch subAccountID fuel = some pr) ↔
      (∃ p, pageHalts fetch subAccountID p)) ∧
    ((∀ p, ¬ pageHalts fetch subAccountID p) →
      ∀ fuel count, GetSubAccountLoop fetch subAccountID fuel count = none) := by
  constructor
  · constructor
    · rintro ⟨fuel, pr, h⟩
      obtain ⟨p, _, hp⟩ :=
        GetSubAccountLoop_some_implies_halts fetch subAccountID fuel 0 pr h
      exact ⟨p, hp⟩
    · rintro ⟨p, hp⟩
      obtain ⟨pr, hpr⟩ := halts_implies_GetSubAccountLoop_some fetch subAccountID
        (p + 1) 0 p (by omega) (by omega) hp
      exact ⟨p + 1, pr, hpr⟩
  · exact no_halt_GetSubAccountLoop_none fetch subAccountID

/-- Witness for C9: against the all-full no-match responder, the loop is
still running after 5 iterations starting from page 3. -/
theorem GetSubAccount_terminates_iff_halting_page_witness :
    GetSubAccountLoop fetchFull 999 5 3 = none :=
  (GetSubAccount_terminates_iff_halting_page fetchFull 999).2
    (fun p => by simp only [pageHalts, fetchFull]; decide) 5 3

lemma containsSubstr_of_data (hay needle : String) (s t : List Char)
    (h : s ++ needle.data ++ t = hay.data) : containsSubstr hay needle :=
  ⟨s, t, h⟩

lemma containsSubstr_append_left (pre s : String) : containsSubstr (pre ++ s) s :=
  containsSubstr_of_data _ _ pre.data [] (by simp [String.data_append])

/-- **C4.** The `AddSubAccount` form body always carries
`sub_account_name` with the payload name; each optional field appears,
with exactly the payload value, if and only if that payload field is
non-empty (strings) or nonzero (integers); a name-only payload yields
exactly the one field, and a payload with every optional field set
yields all five fields. -/
theorem AddSubAccountValues_fields (p : SubAccountPayload) :
    (∀ v, ("sub_account_name", v) ∈ AddSubAccountValues p ↔
      v = p.SubAccountName)
    ∧ (∀ v, ("ref_id", v) ∈ AddSubAccountValues p ↔
        (p.RefID ≠ "" ∧ v = p.RefID))
    ∧ (∀ v, ("parent_id", v) ∈ AddSubAccountValues p ↔
        (p.ParentID ≠ 0 ∧ v = toString p.ParentID))
    ∧ (∀ v, ("logs_account_id", v) ∈ AddSubAccountValues p ↔
        (p.LogsAccountID ≠ 0 ∧ v = toString p.LogsAccountID))
    ∧ (∀ v, ("log_level", v) ∈ AddSubAccountValues p ↔
        (p.LogLevel ≠ "" ∧ v = p.LogLevel))
    ∧ (p.RefID = "" → p.ParentID = 0 → p.LogsAccountID = 0 → p.LogLevel = "" →
        AddSubAccountValues p = [("sub_account_name", p.SubAccountName)])
    ∧ (p.RefID ≠ "" → p.ParentID ≠ 0 → p.LogsAccountID ≠ 0 → p.LogLevel ≠ "" →
        (AddSubAccountValues p).length = 5) := by
  by_cases h1 : p.RefID = "" <;> by_cases h2 : p.ParentID = 0 <;>
    by_cases h3 : p.LogsAccountID = 0 <;> by_cases h4 : p.LogLevel = "" <;>
    simp [AddSubAccountValues, h1, h2, h3, h4]

/-- Witness for C4: the name-only payload yields exactly the one
`sub_account_name` field; the all-set payload yields five fields. -/
theorem AddSubAccountValues_fields_witness :
    AddSubAccountValues payloadNameOnly
        = [("sub_account_name", "my-subaccount")]
      ∧ (AddSubAccountValues payloadAll).length = 5 := by
  refine ⟨?_, ?_⟩
  · exact (AddSubAccountValues_fields payloadNameOnly).2.2.2.2.2.1
      rfl rfl rfl rfl
  · exact (AddSubAccountValues_fields payloadAll).2.2.2.2.2.2
      (by decide) (by decide) (by decide) (by decide)

/-- **C5.** After a successful decode, `AddSubAccount` and
`DeleteSubAccount` fail if and only if the decoded `Res` is nonzero, and
the failure text embeds the raw response body; with `Res = 0`,
`AddSubAccount` returns the decoded response (carrying the
provider-assigned ID) and `DeleteSubAccount` returns success whatever
the decoded `ResMessage` says. -/
theorem resultCode_decides_error
    (decodeA : String → Except String SubAccountAddResponse)
    (decodeD : String → Except String SubAccountDeleteResponse)
    (p : SubAccountPayload) (subAccountID : Int) (respA respD : HTTPResponse)
    (rA : SubAccountAddResponse) (rD : SubAccountDeleteResponse)
    (hA : decodeA respA.body = .ok rA)
    (hD : decodeD respD.body = .ok rD) :
    ((rA.Res ≠ 0 →
        ∃ e, AddSubAccount decodeA p (.ok respA) = .error e
          ∧ containsSubstr e respA.body)
      ∧ (rA.Res = 0 → AddSubAccount decodeA p (.ok respA) = .ok rA))
    ∧ ((rD.Res ≠ 0 →
        ∃ e, DeleteSubAccount decodeD subAccountID (.ok respD) = .error e
          ∧ containsSubstr e respD.body)
      ∧ (rD.Res = 0 →
          DeleteSubAccount decodeD subAccountID (.ok respD) = .ok ())) := by
  refine ⟨⟨?_, ?_⟩, ⟨?_, ?_⟩⟩
  · intro hres
    refine ⟨"Error from Incapsula service when adding subaccount "
        ++ p.SubAccountName ++ ": " ++ respA.body, ?_, ?_⟩
    · simp [AddSubAccount, hA, hres]
    · exact containsSubstr_append_left
        ("Error from Incapsula service when adding subaccount "
          ++ p.SubAccountName ++ ": ") respA.body
  · intro hres
    simp [AddSubAccount, hA, hres]
  · intro hres
    refine ⟨"Error from Incapsula service when deleting subaccount id: "
        ++ toString subAccountID ++ ": " ++ respD.body, ?_, ?_⟩
    · simp [DeleteSubAccount, hD, hres]
    · exact containsSubstr_append_left
        ("Error from Incapsula service when deleting subaccount id: "
          ++ toString subAccountID ++ ": ") respD.body
  · intro hres
    simp [DeleteSubAccount, hD, hres]

/-- Witness for C5: a decoded add response with `Res = 1` yields an error
containing the raw body; a decoded delete response with `Res = 0` and a
non-empty message yields success. -/
theorem resultCode_decides_error_witness :
    (∃ e, AddSubAccount decodeAddRes1W payloadNameOnly (.ok respResW) = .error e
      ∧ containsSubstr e respResW.body)
    ∧ DeleteSubAccount decodeDelRes0W 9 (.ok respResW) = .ok () := by
  have h := resultCode_decides_error decodeAddRes1W decodeDelRes0W
    payloadNameOnly 9 respResW respResW ⟨mkSubAccount 7, 1⟩ ⟨0, "ignored message"⟩
    rfl rfl
  exact ⟨h.1.1 (by decide), h.2.2 rfl⟩

/-- **C7.** The page-fetch form body holds `page_num` with the given page
number, `page_size` with 50, and `account_id` with the parent account ID
exactly when that ID is nonzero; nothing else. -/
theorem sendListSubAccountsValues_fields (accountId : Int) (pageNum : Nat) :
    toString PAGE_SIZE = "50"
    ∧ ∀ k v, (k, v) ∈ sendListSubAccountsValues accountId pageNum ↔
        ((k = "page_num" ∧ v = toString pageNum)
          ∨ (k = "page_size" ∧ v = "50")
          ∨ (k = "account_id" ∧ accountId ≠ 0 ∧ v = toString accountId)) := by
  have h50 : toString PAGE_SIZE = "50" := rfl
  refine ⟨h50, ?_⟩
  intro k v
  by_cases h : accountId = 0
  · simp [sendListSubAccountsValues, h, h50]
  · simp [sendListSubAccountsValues, h, h50]
    tauto

/-- **C10.** The error returned by the body read (`ioutil.ReadAll`) is
discarded by all three operations: the outcome depends only on the bytes
obtained, which are handed to the JSON decoder, and never on the read
error, so the caller can never observe a body-read failure. -/
theorem readAll_error_discarded
    (decodeA : String → Except String SubAccountAddResponse)
    (decodeL : String → Except String SubAccountListResponse)
    (decodeD : String → Except String SubAccountDeleteResponse)
    (p : SubAccountPayload) (accountId subAccountID : Int) (body : String)
    (e1 e2 : Option String) :
    AddSubAccount decodeA p (.ok ⟨body, e1⟩)
        = AddSubAccount decodeA p (.ok ⟨body, e2⟩)
    ∧ sendListSubAccountsRequest decodeL accountId (.ok ⟨body, e1⟩)
        = sendListSubAccountsRequest decodeL accountId (.ok ⟨body, e2⟩)
    ∧ DeleteSubAccount decodeD subAccountID (.ok ⟨body, e1⟩)
        = DeleteSubAccount decodeD subAccountID (.ok ⟨body, e2⟩) :=
  ⟨rfl, rfl, rfl⟩

set_option maxRecDepth 4000 in
/-- Counterexample for C6: on the undecodable body of `respBadW` (with
the decoder failing exactly as encoding/json does on that body), the
parse error of `AddSubAccount` carries the decoder message and the
subaccount name, but its text does not include the raw response body. -/
theorem AddSubAccount_parse_error_lacks_raw_body :
    AddSubAccount decodeAddFailW payloadNameOnly (.ok respBadW)
        = .error addParseErrW
      ∧ ¬ containsSubstr addParseErrW respBadW.body :=
  ⟨rfl, by decide⟩

/-- **C6 (amended).** On any decode failure each of the three operations
returns a non-nil parse error; the list page-fetch error text includes
the raw response body (and the decoder message), while the add and
delete error texts include the decoder message and the operation context
but not necessarily the raw body. -/
theorem parse_error_texts
    (decodeA : String → Except String SubAccountAddResponse)
    (decodeL : String → Except String SubAccountListResponse)
    (decodeD : String → Except String SubAccountDeleteResponse)
    (p : SubAccountPayload) (accountId subAccountID : Int)
    (resp : HTTPResponse) (eA eL eD : String)
    (hA : decodeA resp.body = .error eA)
    (hL : decodeL resp.body = .error eL)
    (hD : decodeD resp.body = .error eD) :
    (∃ m, AddSubAccount decodeA p (.ok resp) = .error m
      ∧ containsSubstr m eA)
    ∧ (∃ m, sendListSubAccountsRequest decodeL accountId (.ok resp) = .error m
        ∧ containsSubstr m resp.body ∧ containsSubstr m eL)
    ∧ (∃ m, DeleteSubAccount decodeD subAccountID (.ok resp) = .error m
        ∧ containsSubstr m eD) := by
  refine ⟨⟨"Error parsing add subaccount JSON response for subaccount "
      ++ p.SubAccountName ++ ": " ++ eA, ?_, ?_⟩,
    ⟨"Error parsing subaccounts list JSON response for accountid: "
      ++ toString accountId ++ " " ++ eL ++ "\nresponse: " ++ resp.body,
      ?_, ?_, ?_⟩,
    ⟨"Error parsing delete account JSON response for subaccount id: "
      ++ toString subAccountID ++ ": " ++ eD, ?_, ?_⟩⟩
  · simp [AddSubAccount, hA]
  · exact containsSubstr_append_left
      ("Error parsing add subaccount JSON response for subaccount "
        ++ p.SubAccountName ++ ": ") eA
  · simp [sendListSubAccountsRequest, hL]
  · exact containsSubstr_append_left
      ("Error parsing subaccounts list JSON response for accountid: "
        ++ toString accountId ++ " " ++ eL ++ "\nresponse: ") resp.body
  · exact containsSubstr_of_data _ _
      ("Error parsing subaccounts list JSON response for accountid: "
        ++ toString accountId ++ " ").data
      ("\nresponse: " ++ resp.body).data
      (by simp [String.data_append])
  · simp [DeleteSubAccount, hD]
  · exact containsSubstr_append_left
      ("Error parsing delete account JSON response for subaccount id: "
        ++ toString subAccountID ++ ": ") eD

/-- Witness for C6 (amended): concrete decode failures on the body of
`respBadW`. -/
theorem parse_error_texts_witness :
    (∃ m, AddSubAccount decodeAddFailW payloadNameOnly (.ok respBadW) = .error m
      ∧ containsSubstr m jsonEOFMsg)
    ∧ (∃ m, sendListSubAccountsRequest decodeListFailW 3 (.ok respBadW) = .error m
        ∧ containsSubstr m respBadW.body ∧ containsSubstr m jsonEOFMsg)
    ∧ (∃ m, DeleteSubAccount decodeDelFailW 9 (.ok respBadW) = .error m
        ∧ containsSubstr m jsonEOFMsg) :=
  parse_error_texts decodeAddFailW decodeListFailW decodeDelFailW
    payloadNameOnly 3 9 respBadW jsonEOFMsg jsonEOFMsg jsonEOFMsg rfl rfl rfl

set_option maxRecDepth 4000 in
/-- **C8.** The struct tags map every wire key to its field exactly as
named; in particular the malformed `LogsAccountID` tag (stray quote)
still resolves to the wire name `logs_account_id` under the Go tag
grammar, so a JSON object with key `logs_account_id` populates the
logs-destination account ID on both directions of the wire. -/
theorem json_wire_names :
    structTagLookup tagLogsAccountID "json" = some "logs_account_id"
    ∧ jsonFieldKey "LogsAccountID" tagLogsAccountID = some "logs_account_id"
    ∧ jsonFieldKey "SubAccountID" tagSubAccountID = some "sub_account_id"
    ∧ jsonFieldKey "SubAccountName" tagSubAccountName = some "sub_account_name"
    ∧ jsonFieldKey "RefID" tagRefID = some "ref_id"
    ∧ jsonFieldKey "LogLevel" tagLogLevel = some "log_level"
    ∧ jsonFieldKey "ParentID" tagParentID = some "parent_id"
    ∧ jsonFieldKey "Res" tagRes = some "res"
    ∧ jsonFieldKey "SubAccounts" tagResultList = some "resultList"
    ∧ decodeSubAccountPayload [("logs_account_id", .num 7)]
        = ⟨"", "", "", 0, 7⟩
    ∧ decodeSubAccount
        [("sub_account_id", .num 3), ("sub_account_name", .str "x"),
          ("ref_id", .str "r"), ("log_level", .str "full"),
          ("parent_id", .num 5), ("logs_account_id", .num 7)]
        = ⟨3, ⟨"x", "r", "full", 5, 7⟩⟩
    ∧ decodeSubAccountAddResponse
        [("sub_account",
            .obj [("sub_account_id", .num 7), ("sub_account_name", .str "x")]),
          ("res", .num 0)]
        = ⟨⟨7, ⟨"x", "", "", 0, 0⟩⟩, 0⟩
    ∧ decodeSubAccountListResponse
        [("res", .num 0),
          ("resultList", .arr [.obj [("sub_account_id", .num 3)]])]
        = ⟨[⟨3, ⟨"", "", "", 0, 0⟩⟩], 0⟩
    ∧ decodeSubAccountDeleteResponse
        [("res", .num 1), ("res_message", .str "m")]
        = ⟨1, "m"⟩ :=
  ⟨rfl, rfl, rfl, rfl, rfl, rfl, rfl, rfl, rfl, rfl, rfl, rfl, rfl, rfl⟩

end Incapsula
